import Mathlib

/-
Verification of the asteroid-game core (TypeScript sources under src/).

Shallow embedding conventions:
* JavaScript numbers are modelled as ℚ where the code is purely linear
  arithmetic (screen wrapping, lifespans, lives, wave counts), keeping the
  definitions executable, and as ℝ where the code calls Math.sqrt / Math.cos /
  Math.sin (magnitude clamping, angle-to-velocity conversion).
* Math.random() draws are modelled as explicit parameters (a value in [0,1)
  per draw, or a list of draws for loops that consume several).
* Phaser timers (delayedCall / addEvent) are modelled as explicit deadlines
  stored in the state and compared against the frame clock when it advances.
-/

namespace AsteroidGame

/-! ## Arena and entity configuration — src/config.ts -/

namespace GAME

def WIDTH : ℚ := 800

def HEIGHT : ℚ := 600

def LIVES : ℤ := 3

def INITIAL_ASTEROIDS : ℕ := 4

end GAME

/-! ## Vector / kinematics utilities — src/utils/math.ts -/

/-- `wrapPosition(x, y, margin)` from src/utils/math.ts.  The source mutates
`y` then `x` with the two `if / else if` chains and returns `{x, y}`;
`GAME.WIDTH = 800`, `GAME.HEIGHT = 600` (src/config.ts).  Stated generically
over a linear ordered field so it serves the ℚ embedding (bullets, spawn
positions) and the ℝ embedding (ship) alike. -/
def wrapPosition {α : Type} [LinearOrderedField α] (x y margin : α) : α × α :=
  let y2 : α :=
    if y + margin ≤ 0 then 600 + margin
    else if y - margin ≥ 600 then -margin
    else y
  let x2 : α :=
    if x + margin ≤ 0 then 800 + margin
    else if x - margin ≥ 800 then -margin
    else x
  (x2, y2)

/-- `velocityFromAngle(angleDeg, speed)` from src/utils/math.ts:
degrees → radians, then `(speed·cos, speed·sin)`. -/
noncomputable def velocityFromAngle (angleDeg speed : ℝ) : ℝ × ℝ :=
  (speed * Real.cos (angleDeg * Real.pi / 180),
   speed * Real.sin (angleDeg * Real.pi / 180))

/-- `clampMagnitude(vx, vy, max)` from src/utils/math.ts: if
`√(vx² + vy²) > max` both components are scaled by `max / mag`, otherwise the
input is returned unchanged. -/
noncomputable def clampMagnitude (vx vy max : ℝ) : ℝ × ℝ :=
  if max < Real.sqrt (vx ^ 2 + vy ^ 2) then
    (vx * max / Real.sqrt (vx ^ 2 + vy ^ 2),
     vy * max / Real.sqrt (vx ^ 2 + vy ^ 2))
  else (vx, vy)

/-- The guard of `clampMagnitude`'s scaling branch (`mag > max`): exactly when
this holds does the source evaluate the divisions `vx * max / mag`,
`vy * max / mag`. -/
def clampScales (vx vy max : ℝ) : Prop :=
  max < Real.sqrt (vx ^ 2 + vy ^ 2)

/-- `randomBetween(min, max)` from src/utils/math.ts is
`min + Math.random() * (max - min)`; the `Math.random()` draw is the explicit
first argument `r` (a value in `[0, 1)`). -/
def randomBetween {α : Type} [LinearOrderedField α] (r min max : α) : α :=
  min + r * (max - min)

/-! ## Bullet — src/src/entities/Bullet.ts

`BULLET.SPEED = 500`, `BULLET.LIFESPAN = 1000`, `BULLET.SIZE = 2`
(src/config.ts).  The velocity components are set once in the constructor and
the lifespan starts at `BULLET.LIFESPAN`. -/

structure Bullet where
  x : ℚ
  y : ℚ
  velocityX : ℚ
  velocityY : ℚ
  lifespan : ℚ

namespace Bullet

/-- The `Bullet` constructor: position from the arguments, velocity from the
arguments, `lifespan = BULLET.LIFESPAN = 1000`. -/
def make (x y velocityX velocityY : ℚ) : Bullet :=
  { x := x, y := y, velocityX := velocityX, velocityY := velocityY,
    lifespan := 1000 }

/-- `Bullet.update(delta)`: decrements `lifespan` by `delta` first; if the
result is `≤ 0` it returns `false` without touching the position; otherwise it
integrates `velocity · delta/1000` into the position, wraps with
`margin = BULLET.SIZE = 2`, and returns `true`.  The source's `dt / x1 / y1 /
wrapped` locals are inlined; the returned pair is
(return value, post-call bullet state). -/
def update (b : Bullet) (delta : ℚ) : Bool × Bullet :=
  if b.lifespan - delta ≤ 0 then
    (false, { b with lifespan := b.lifespan - delta })
  else
    (true,
      { b with
        lifespan := b.lifespan - delta
        x := (wrapPosition (b.x + b.velocityX * (delta / 1000))
                (b.y + b.velocityY * (delta / 1000)) 2).1
        y := (wrapPosition (b.x + b.velocityX * (delta / 1000))
                (b.y + b.velocityY * (delta / 1000)) 2).2 })

/-- Repeated `update` calls (GameScene calls `update` once per frame),
keeping only the mutated state. -/
def run (b : Bullet) (deltas : List ℚ) : Bullet :=
  deltas.foldl (fun s d => (update s d).2) b

end Bullet

/-! ## Ship — src/src/entities/Ship.ts

`SHIP.THRUST = 200`, `SHIP.MAX_SPEED = 400`, `SHIP.ROTATION_SPEED = 200`,
`SHIP.SIZE = 20`, `SHIP.INVINCIBILITY = 2000`, `SHIP.FIRE_RATE = 250`
(src/config.ts).  The flicker timer only toggles `alpha` (visual); the
invincibility timer is the `delayedCall` that clears `isInvincible`, modelled
as a deadline on the scene clock.  `makeInvincible` removes both pending
timers before installing fresh ones. -/

/-- Held arrow keys handed to `Ship.update` (the Phaser cursor-keys object). -/
structure Cursors where
  left : Bool
  right : Bool
  up : Bool

structure Ship where
  x : ℝ
  y : ℝ
  angle : ℝ
  velocityX : ℝ
  velocityY : ℝ
  isInvincible : Bool
  /-- Scene-clock deadline of the pending invincibility `delayedCall`,
  if one is pending. -/
  invincibilityDeadline : Option ℝ

namespace Ship

/-- The `Ship` constructor: placed at `(x, y)`, velocity zero,
`isInvincible = false`, no pending timers (`angle` starts at Phaser's
default 0; GameScene immediately calls `setAngle(-90)`). -/
def make (x y : ℝ) : Ship :=
  { x := x, y := y, angle := 0, velocityX := 0, velocityY := 0,
    isInvincible := false, invincibilityDeadline := none }

/-- Step 1 of `Ship.update`: rotation — `SHIP.ROTATION_SPEED = 200` deg/s
times `dt`, subtracted while left is held and added while right is held
(both keys held applies both increments). -/
def newAngle (s : Ship) (dt : ℝ) (cursors : Cursors) : ℝ :=
  if cursors.right then
    (if cursors.left then s.angle - 200 * dt else s.angle) + 200 * dt
  else
    (if cursors.left then s.angle - 200 * dt else s.angle)

/-- Step 2 of `Ship.update`: thrust — while up is held, add
`velocityFromAngle(angle, SHIP.THRUST · dt)` (with the angle already rotated
by step 1) to the velocity and clamp it to `SHIP.MAX_SPEED = 400`; otherwise
the velocity is untouched. -/
noncomputable def newVelocity (s : Ship) (dt : ℝ) (cursors : Cursors) : ℝ × ℝ :=
  if cursors.up then
    clampMagnitude
      (s.velocityX + (velocityFromAngle (newAngle s dt cursors) (200 * dt)).1)
      (s.velocityY + (velocityFromAngle (newAngle s dt cursors) (200 * dt)).2)
      400
  else (s.velocityX, s.velocityY)

/-- `Ship.update(delta, cursors)`: rotation (step 1), thrust with clamping
(step 2), unconditional position integration (step 3: no friction), then
`wrapPosition` with `margin = SHIP.SIZE = 20` (step 4).  `dt = delta / 1000`
throughout. -/
noncomputable def update (s : Ship) (delta : ℝ) (cursors : Cursors) : Ship :=
  { s with
    angle := newAngle s (delta / 1000) cursors
    velocityX := (newVelocity s (delta / 1000) cursors).1
    velocityY := (newVelocity s (delta / 1000) cursors).2
    x := (wrapPosition
            (s.x + (newVelocity s (delta / 1000) cursors).1 * (delta / 1000))
            (s.y + (newVelocity s (delta / 1000) cursors).2 * (delta / 1000))
            20).1
    y := (wrapPosition
            (s.x + (newVelocity s (delta / 1000) cursors).1 * (delta / 1000))
            (s.y + (newVelocity s (delta / 1000) cursors).2 * (delta / 1000))
            20).2 }

/-- `Ship.makeInvincible()` called when the scene clock reads `now`: any
pending invincibility timer is removed (`removeEvent`), the flag is set, and a
fresh `delayedCall(SHIP.INVINCIBILITY = 2000)` is scheduled — so the stored
deadline is `now + 2000`, replacing any previous one. -/
def makeInvincible (s : Ship) (now : ℝ) : Ship :=
  { s with isInvincible := true, invincibilityDeadline := some (now + 2000) }

/-- The scene clock reaching `now`: a pending invincibility `delayedCall`
whose deadline has elapsed fires, clearing `isInvincible` (and removing the
flicker timer, which only affects `alpha`). -/
noncomputable def clockFires (s : Ship) (now : ℝ) : Ship :=
  match s.invincibilityDeadline with
  | none => s
  | some d =>
      if d ≤ now then
        { s with isInvincible := false, invincibilityDeadline := none }
      else s

/-- `Ship.reset(x, y)` at scene clock `now`: teleport, zero velocity, face up
(`angle = -90`), `makeInvincible()`. -/
def reset (s : Ship) (x y now : ℝ) : Ship :=
  makeInvincible
    { s with x := x, y := y, velocityX := 0, velocityY := 0, angle := -90 }
    now

end Ship

/-- The operations GameScene performs on the ship over a session: per-frame
`update` calls, respawn `reset` calls, and the scene clock advancing (firing
due timers). -/
inductive ShipEvent where
  | update (delta : ℝ) (cursors : Cursors)
  | reset (x y now : ℝ)
  | clock (now : ℝ)

/-- Applying one `ShipEvent` to a ship. -/
noncomputable def shipStep (s : Ship) : ShipEvent → Ship
  | .update delta cursors => s.update delta cursors
  | .reset x y now => s.reset x y now
  | .clock now => s.clockFires now

/-- Applying a whole sequence of `ShipEvent`s, first to last. -/
noncomputable def shipRun (s : Ship) (evs : List ShipEvent) : Ship :=
  evs.foldl shipStep s

/-- The scene clock advancing through a list of instants, firing any due
invincibility timer at each. -/
noncomputable def clockRun (s : Ship) (instants : List ℝ) : Ship :=
  instants.foldl Ship.clockFires s

/-- The constraint GameScene operates under: frame deltas handed to
`Ship.update` are non-negative (elapsed time). -/
def ShipEvent.wellFormed : ShipEvent → Prop
  | .update delta _ => 0 ≤ delta
  | .reset _ _ _ => True
  | .clock _ => True

/-! ## Asteroid — src/src/entities/Asteroid.ts (src/unnamed/part_000)

Size tiers, the `CHILD_SIZE` lookup, and the per-tier config table
(`ASTEROID` in src/config.ts). -/

inductive AsteroidSize where
  | LARGE
  | MEDIUM
  | SMALL
deriving DecidableEq

/-- One tier's entry of the `ASTEROID` config table (src/config.ts). -/
structure SizeConfig where
  RADIUS : ℚ
  SPEED_MIN : ℚ
  SPEED_MAX : ℚ
  VERTICES : ℕ

/-- The `SIZE_CONFIG` table of Asteroid.ts, with the values of
`ASTEROID.LARGE / MEDIUM / SMALL` from src/config.ts. -/
def SIZE_CONFIG : AsteroidSize → SizeConfig
  | .LARGE => { RADIUS := 40, SPEED_MIN := 30, SPEED_MAX := 80, VERTICES := 10 }
  | .MEDIUM => { RADIUS := 25, SPEED_MIN := 50, SPEED_MAX := 120, VERTICES := 8 }
  | .SMALL => { RADIUS := 12, SPEED_MIN := 80, SPEED_MAX := 180, VERTICES := 6 }

/-- The `CHILD_SIZE` record of Asteroid.ts
(`LARGE ↦ MEDIUM`, `MEDIUM ↦ SMALL`, `SMALL ↦ null`), read by
`Asteroid.getChildSize()`. -/
def getChildSize : AsteroidSize → Option AsteroidSize
  | .LARGE => some .MEDIUM
  | .MEDIUM => some .SMALL
  | .SMALL => none

/-! ## GameScene — src/docs/plans/2026-02-16-asteroids-implementation-plan.md

The implementation plan carries the full GameScene listing (splitAsteroid,
spawnWave, getSpawnPosition, onShipHit, and the per-frame wave-advance
check); it is the GameScene source in this repository. -/

/-- The constructor arguments of one `new Asteroid(scene, x, y, size, vx, vy)`
call made by `GameScene.splitAsteroid` (velocity components in ℝ because they
come out of `velocityFromAngle`). -/
structure ChildSpawn where
  x : ℝ
  y : ℝ
  size : AsteroidSize
  velocityX : ℝ
  velocityY : ℝ

/-- `GameScene.splitAsteroid` restricted to the asteroids it creates (the
destroy/splice of the parent is collection bookkeeping): if
`asteroid.getChildSize()` is null nothing is spawned; otherwise the `for`
loop runs twice, and iteration `i` draws `angle = randomBetween(0, 360)` and
`speed = randomBetween(sizeConfig.SPEED_MIN, sizeConfig.SPEED_MAX)` of the
child tier, converts them with `velocityFromAngle`, and constructs a child at
the parent's `(x, y)`.  The four `Math.random()` draws are the explicit
parameters `r1 r2` (first child's angle and speed) and `r3 r4` (second
child's); the parent's velocity is not an input at all. -/
noncomputable def splitAsteroid (px py : ℝ) (size : AsteroidSize)
    (r1 r2 r3 r4 : ℝ) : List ChildSpawn :=
  match getChildSize size with
  | none => []
  | some childSize =>
      let cfg := SIZE_CONFIG childSize
      let angle1 : ℝ := randomBetween r1 0 360
      let speed1 : ℝ := randomBetween r2 (cfg.SPEED_MIN : ℝ) (cfg.SPEED_MAX : ℝ)
      let vel1 := velocityFromAngle angle1 speed1
      let angle2 : ℝ := randomBetween r3 0 360
      let speed2 : ℝ := randomBetween r4 (cfg.SPEED_MIN : ℝ) (cfg.SPEED_MAX : ℝ)
      let vel2 := velocityFromAngle angle2 speed2
      [ { x := px, y := py, size := childSize,
          velocityX := vel1.1, velocityY := vel1.2 },
        { x := px, y := py, size := childSize,
          velocityX := vel2.1, velocityY := vel2.2 } ]

/-- The constructor arguments of one `new Asteroid(this, x, y, 'LARGE')` call
made by `GameScene.spawnWave` (no velocity arguments: the constructor draws
its own). -/
structure WaveSpawn where
  x : ℚ
  y : ℚ
  size : AsteroidSize

/-- One iteration of `GameScene.getSpawnPosition`'s `do` body: `edge` is the
`Math.floor(Math.random() * 4)` draw (the `switch` sends 0/1/2 to
top/bottom/left and everything else — `default` — to right) and `t` is the
`Math.random()` draw inside `randomBetween(0, WIDTH)` resp.
`randomBetween(0, HEIGHT)`. -/
def edgePoint (edge : ℕ) (t : ℚ) : ℚ × ℚ :=
  match edge with
  | 0 => (randomBetween t 0 800, 0)
  | 1 => (randomBetween t 0 800, 600)
  | 2 => (0, randomBetween t 0 600)
  | _ => (800, randomBetween t 0 600)

/-- `GameScene.getSpawnPosition`: rejection-sample edge points until one is at
least `minDist = 150` from the ship; `Math.hypot(dx, dy) < 150` is embedded
as the equivalent `dx² + dy² < 150²` to keep the definition executable.  The
loop consumes the explicit draw list; `none` means the list of draws ran out
(the source would keep looping on further `Math.random()` calls).  Returns
the accepted point and the unconsumed draws. -/
def getSpawnPosition (shipX shipY : ℚ) :
    List (ℕ × ℚ) → Option ((ℚ × ℚ) × List (ℕ × ℚ))
  | [] => none
  | (edge, t) :: rest =>
      if ((edgePoint edge t).1 - shipX) ^ 2 +
          ((edgePoint edge t).2 - shipY) ^ 2 < 150 ^ 2 then
        getSpawnPosition shipX shipY rest
      else
        some (edgePoint edge t, rest)

/-- The `for` loop of `GameScene.spawnWave`: spawn `count` large asteroids,
each at a fresh `getSpawnPosition` result, threading the draw list through. -/
def spawnAsteroids (shipX shipY : ℚ) :
    ℕ → List (ℕ × ℚ) → Option (List WaveSpawn × List (ℕ × ℚ))
  | 0, draws => some ([], draws)
  | n + 1, draws =>
      match getSpawnPosition shipX shipY draws with
      | none => none
      | some (p, rest) =>
          match spawnAsteroids shipX shipY n rest with
          | none => none
          | some (spawned, rest2) =>
              some ({ x := p.1, y := p.2, size := .LARGE } :: spawned, rest2)

/-- `GameScene.spawnWave`: `count = GAME.INITIAL_ASTEROIDS + (wave - 1)`
asteroids, all `'LARGE'`, positions from `getSpawnPosition`. -/
def spawnWave (wave : ℕ) (shipX shipY : ℚ) (draws : List (ℕ × ℚ)) :
    Option (List WaveSpawn × List (ℕ × ℚ)) :=
  spawnAsteroids shipX shipY (GAME.INITIAL_ASTEROIDS + (wave - 1)) draws

/-- The wave-completion check at the end of `GameScene.update`: when the live
asteroid list is empty the wave counter increments and `spawnWave` runs;
otherwise nothing happens.  Returns the new wave number and the new asteroid
list with the unconsumed draws (`none` if the draw list ran out mid-spawn). -/
def waveCheck (asteroids : List WaveSpawn) (wave : ℕ) (shipX shipY : ℚ)
    (draws : List (ℕ × ℚ)) : ℕ × Option (List WaveSpawn × List (ℕ × ℚ)) :=
  if asteroids.isEmpty then
    (wave + 1, spawnWave (wave + 1) shipX shipY draws)
  else
    (wave, some (asteroids, draws))

/-! ## Session life-cycle — GameScene lives / respawn / game-over -/

/-- The orchestrator's life-cycle states: `Playing` (normal frame), the
respawn pause (`isRespawning = true`), and the hand-off to the GameOver
scene. -/
inductive Phase where
  | Playing
  | Respawning
  | GameOver
deriving DecidableEq

/-- The GameScene session fields touched by `onShipHit` and the respawn
`delayedCall`. -/
structure Session where
  lives : ℤ
  score : ℤ
  phase : Phase
deriving DecidableEq

/-- `GameScene.onShipHit`: decrement `lives`; if the result is `≤ 0`, clean up
the ship and start the GameOver scene (early return — no respawn scheduled);
otherwise hide the ship, set `isRespawning`, and schedule the 1000 ms respawn
`delayedCall`.  The Bool reports whether that respawn call was scheduled. -/
def onShipHit (s : Session) : Session × Bool :=
  if s.lives - 1 ≤ 0 then
    ({ s with lives := s.lives - 1, phase := .GameOver }, false)
  else
    ({ s with lives := s.lives - 1, phase := .Respawning }, true)

/-- The body of `onShipHit`'s respawn `delayedCall`: show the ship, reset it
to the arena center, clear `isRespawning` — the session is Playing again. -/
def respawnComplete (s : Session) : Session :=
  { s with phase := .Playing }

/-! ## Helper lemmas -/

lemma wrapPosition_fst {α : Type} [LinearOrderedField α] (x y margin : α) :
    (wrapPosition x y margin).1 =
      if x + margin ≤ 0 then 800 + margin
      else if x - margin ≥ 800 then -margin
      else x := rfl

lemma wrapPosition_snd {α : Type} [LinearOrderedField α] (x y margin : α) :
    (wrapPosition x y margin).2 =
      if y + margin ≤ 0 then 600 + margin
      else if y - margin ≥ 600 then -margin
      else y := rfl

lemma wrapPosition_eta {α : Type} [LinearOrderedField α] (x y margin : α) :
    wrapPosition x y margin =
      ((wrapPosition x y margin).1, (wrapPosition x y margin).2) := rfl

/-! ## Claims about wrapPosition -/

/-- C7 counterexample: with `margin = 0`, the point `-margin - 1 = -1` exits
the left edge and `wrapPosition` maps it to `WIDTH + margin = 800`, which is
not strictly greater than the width (the repository's own
`wraps with zero margin` test expects exactly `GAME.WIDTH`). -/
theorem wrapPosition_zero_margin_not_strict :
    (wrapPosition (-(0:ℚ) - 1) 300 0).1 = 800 ∧
    ¬ 800 < (wrapPosition (-(0:ℚ) - 1) 300 0).1 := by
  constructor
  · rw [wrapPosition_fst]
    norm_num
  · rw [wrapPosition_fst]
    norm_num

/-- C7 (amended: the strict inequalities at the four edges require
`margin > 0`; at `margin = 0` the wrapped coordinate equals the bound
exactly): `wrapPosition` is the identity strictly inside
`[-margin, width+margin] × [-margin, height+margin]`; for `margin > 0` a
point at `-margin - 1` wraps to an x strictly beyond the width, with the
symmetric results at the other three edges, and on a diagonal exit both axes
wrap simultaneously. -/
theorem wrapPosition_interior_and_edges (x y m : ℚ) (hm : 0 < m) :
    ((-m < x → x < 800 + m → -m < y → y < 600 + m →
        wrapPosition x y m = (x, y))) ∧
    800 < (wrapPosition (-m - 1) y m).1 ∧
    (wrapPosition (800 + m + 1) y m).1 < 0 ∧
    600 < (wrapPosition x (-m - 1) m).2 ∧
    (wrapPosition x (600 + m + 1) m).2 < 0 ∧
    wrapPosition (-m - 1) (-m - 1) m = (800 + m, 600 + m) := by
  refine ⟨?_, ?_, ?_, ?_, ?_, ?_⟩
  · intro h1 h2 h3 h4
    rw [wrapPosition_eta, wrapPosition_fst, wrapPosition_snd]
    rw [if_neg (by linarith), if_neg (by simp; linarith),
        if_neg (by linarith), if_neg (by simp; linarith)]
  · rw [wrapPosition_fst, if_pos (by linarith)]
    linarith
  · rw [wrapPosition_fst, if_neg (by simp; linarith), if_pos (by simp; linarith)]
    linarith
  · rw [wrapPosition_snd, if_pos (by linarith)]
    linarith
  · rw [wrapPosition_snd, if_neg (by simp; linarith), if_pos (by simp; linarith)]
    linarith
  · rw [wrapPosition_eta, wrapPosition_fst, wrapPosition_snd]
    rw [if_pos (by linarith), if_pos (by linarith)]

/-- Witness for `wrapPosition_interior_and_edges` at `x = 400`, `y = 300`,
`m = 20`. -/
theorem wrapPosition_interior_and_edges_witness :
    (0:ℚ) < 20 ∧ 800 < (wrapPosition (-(20:ℚ) - 1) 300 20).1 :=
  ⟨by norm_num, (wrapPosition_interior_and_edges 400 300 20 (by norm_num)).2.1⟩

/-- C10: for every input and every `margin ≥ 0`, the result of
`wrapPosition` lies in `[-margin, width+margin] × [-margin, height+margin]`,
and an out-of-band coordinate is set to the fixed opposite-edge value
(`width+margin` / `height+margin` / `-margin`), not shifted modularly. -/
theorem wrapPosition_range (x y m : ℚ) (hm : 0 ≤ m) :
    (-m ≤ (wrapPosition x y m).1 ∧ (wrapPosition x y m).1 ≤ 800 + m) ∧
    (-m ≤ (wrapPosition x y m).2 ∧ (wrapPosition x y m).2 ≤ 600 + m) ∧
    (x + m ≤ 0 → (wrapPosition x y m).1 = 800 + m) ∧
    (800 + m ≤ x → (wrapPosition x y m).1 = -m) ∧
    (y + m ≤ 0 → (wrapPosition x y m).2 = 600 + m) ∧
    (600 + m ≤ y → (wrapPosition x y m).2 = -m) := by
  refine ⟨?_, ?_, ?_, ?_, ?_, ?_⟩
  · rw [wrapPosition_fst]
    split_ifs with h1 h2 <;> constructor <;> simp at * <;> linarith
  · rw [wrapPosition_snd]
    split_ifs with h1 h2 <;> constructor <;> simp at * <;> linarith
  · intro h
    rw [wrapPosition_fst, if_pos h]
  · intro h
    rw [wrapPosition_fst, if_neg (by linarith), if_pos (by simp; linarith)]
  · intro h
    rw [wrapPosition_snd, if_pos h]
  · intro h
    rw [wrapPosition_snd, if_neg (by linarith), if_pos (by simp; linarith)]

/-- Witness for `wrapPosition_range` at a far-out-of-arena input. -/
theorem wrapPosition_range_witness :
    (0:ℚ) ≤ 2 ∧ (800 + (2:ℚ) ≤ 5000000 ∧
      (wrapPosition (5000000:ℚ) (-777) 2).1 = -2) := by
  refine ⟨by norm_num, by norm_num, ?_⟩
  exact (wrapPosition_range 5000000 (-777) 2 (by norm_num)).2.2.2.1 (by norm_num)

/-! ## Claims about Bullet.update -/

lemma bullet_update_expired_state (b : Bullet) (d : ℚ) (hb : b.lifespan ≤ 0)
    (hd : 0 ≤ d) :
    Bullet.update b d = (false, { b with lifespan := b.lifespan - d }) := by
  unfold Bullet.update
  rw [if_pos (by linarith)]

lemma bullet_update_false_lifespan (b : Bullet) (d : ℚ)
    (h : (Bullet.update b d).1 = false) :
    (Bullet.update b d).2.lifespan ≤ 0 ∧
    (Bullet.update b d).2.lifespan = b.lifespan - d := by
  unfold Bullet.update at h ⊢
  by_cases hc : b.lifespan - d ≤ 0
  · rw [if_pos hc]
    exact ⟨hc, rfl⟩
  · rw [if_neg hc] at h
    simp at h

lemma bullet_run_expired (ds : List ℚ) :
    ∀ b : Bullet, b.lifespan ≤ 0 → (∀ d ∈ ds, 0 ≤ d) →
      (Bullet.run b ds).x = b.x ∧ (Bullet.run b ds).y = b.y ∧
      (Bullet.run b ds).lifespan ≤ b.lifespan := by
  induction ds with
  | nil => exact fun b _ _ => ⟨rfl, rfl, le_refl _⟩
  | cons d ds ih =>
    intro b hb hds
    have hd : 0 ≤ d := hds d (by simp)
    have hrun : Bullet.run b (d :: ds) = Bullet.run (Bullet.update b d).2 ds := rfl
    rw [hrun, bullet_update_expired_state b d hb hd]
    obtain ⟨h1, h2, h3⟩ :=
      ih { b with lifespan := b.lifespan - d } (by simp; linarith)
        (fun d' hd' => hds d' (by simp [hd']))
    exact ⟨h1, h2, by simp at h3 ⊢; linarith⟩

/-- C5: `Bullet.update(delta)` decrements the lifespan by `delta` first in
every case; if the decremented lifespan is `≤ 0` it returns `false` with the
position untouched; otherwise it moves the position by `velocity · delta/1000`
(ms → s), wraps with `margin = BULLET.SIZE = 2`, and returns `true`. -/
theorem bullet_update_spec (b : Bullet) (delta : ℚ) (hd : 0 ≤ delta) :
    ((Bullet.update b delta).2.lifespan = b.lifespan - delta) ∧
    (b.lifespan - delta ≤ 0 →
      Bullet.update b delta =
        (false, { b with lifespan := b.lifespan - delta })) ∧
    (0 < b.lifespan - delta →
      Bullet.update b delta =
        (true,
          { b with
            lifespan := b.lifespan - delta
            x := (wrapPosition (b.x + b.velocityX * (delta / 1000))
                    (b.y + b.velocityY * (delta / 1000)) 2).1
            y := (wrapPosition (b.x + b.velocityX * (delta / 1000))
                    (b.y + b.velocityY * (delta / 1000)) 2).2 })) := by
  refine ⟨?_, ?_, ?_⟩
  · unfold Bullet.update
    split_ifs <;> rfl
  · intro h
    unfold Bullet.update
    rw [if_pos h]
  · intro h
    unfold Bullet.update
    rw [if_neg (by linarith)]

/-- Witness for `bullet_update_spec`: a fresh bullet (lifespan 1000) updated
with `delta = 1500` expires without moving. -/
theorem bullet_update_spec_witness :
    (0:ℚ) ≤ 1500 ∧
    ((Bullet.make 100 200 50 (-30)).lifespan - 1500 ≤ 0 ∧
      Bullet.update (Bullet.make 100 200 50 (-30)) 1500 =
        (false, { Bullet.make 100 200 50 (-30) with
                    lifespan := (Bullet.make 100 200 50 (-30)).lifespan - 1500 })) := by
  refine ⟨by norm_num, by norm_num [Bullet.make], ?_⟩
  exact (bullet_update_spec (Bullet.make 100 200 50 (-30)) 1500
    (by norm_num)).2.1 (by norm_num [Bullet.make])

/-- C9: once `Bullet.update` has returned `false`, every later `update` with a
non-negative delta also returns `false` and never moves the bullet again, and
the lifespan never increases. -/
theorem bullet_expired_stays_dead (b : Bullet) (d0 : ℚ)
    (hf : (Bullet.update b d0).1 = false)
    (ds : List ℚ) (hds : ∀ d ∈ ds, 0 ≤ d) (d : ℚ) (hd : 0 ≤ d) :
    (Bullet.update (Bullet.run (Bullet.update b d0).2 ds) d).1 = false ∧
    (Bullet.run (Bullet.update b d0).2 ds).x = (Bullet.update b d0).2.x ∧
    (Bullet.run (Bullet.update b d0).2 ds).y = (Bullet.update b d0).2.y ∧
    (Bullet.update (Bullet.run (Bullet.update b d0).2 ds) d).2.x =
      (Bullet.update b d0).2.x ∧
    (Bullet.update (Bullet.run (Bullet.update b d0).2 ds) d).2.y =
      (Bullet.update b d0).2.y ∧
    (Bullet.run (Bullet.update b d0).2 ds).lifespan ≤
      (Bullet.update b d0).2.lifespan := by
  obtain ⟨hle, _⟩ := bullet_update_false_lifespan b d0 hf
  obtain ⟨hx, hy, hlife⟩ := bullet_run_expired ds (Bullet.update b d0).2 hle hds
  have hle2 : (Bullet.run (Bullet.update b d0).2 ds).lifespan ≤ 0 := le_trans hlife hle
  have hstep := bullet_update_expired_state
    (Bullet.run (Bullet.update b d0).2 ds) d hle2 hd
  refine ⟨by rw [hstep], hx, hy, ?_, ?_, hlife⟩
  · rw [hstep]
    exact hx
  · rw [hstep]
    exact hy

/-- Witness for `bullet_expired_stays_dead`: a bullet expired by a 1500 ms
frame stays dead across further 10 ms, 20 ms and 5 ms frames. -/
theorem bullet_expired_stays_dead_witness :
    (Bullet.update (Bullet.make 100 200 50 (-30)) 1500).1 = false ∧
    (∀ d ∈ [(10:ℚ), 20], 0 ≤ d) ∧ (0:ℚ) ≤ 5 ∧
    (Bullet.update
      (Bullet.run (Bullet.update (Bullet.make 100 200 50 (-30)) 1500).2 [10, 20])
      5).1 = false := by
  have hf : (Bullet.update (Bullet.make 100 200 50 (-30)) 1500).1 = false := by
    norm_num [Bullet.make, Bullet.update]
  refine ⟨hf, by norm_num, by norm_num, ?_⟩
  exact (bullet_expired_stays_dead (Bullet.make 100 200 50 (-30)) 1500 hf
    [10, 20] (by norm_num) 5 (by norm_num)).1

/-! ## Claims about the session life-cycle -/

/-- C1: on a ship-asteroid collision processed while Playing, `onShipHit`
decrements lives by exactly one; when lives read more than 1 after the
decrement the session enters Respawning (scheduling the respawn delay), when
they reach 0 it enters GameOver; the only states reachable from Playing by a
hit are Respawning and GameOver.  Scenario: from 3 lives, three hits (with
the respawn delay completing in between) give Respawning, Respawning,
GameOver with lives 2, 1, 0, and no respawn is scheduled after the third
hit. -/
theorem onShipHit_spec (s : Session) (hp : s.phase = .Playing) :
    ((onShipHit s).1.lives = s.lives - 1) ∧
    (1 < s.lives - 1 →
      (onShipHit s).1.phase = .Respawning ∧ (onShipHit s).2 = true) ∧
    (s.lives - 1 = 0 →
      (onShipHit s).1.phase = .GameOver ∧ (onShipHit s).2 = false) ∧
    ((onShipHit s).1.phase = .Respawning ∨ (onShipHit s).1.phase = .GameOver) ∧
    (s.lives = 3 →
      (onShipHit s).1.lives = 2 ∧
      (onShipHit s).1.phase = .Respawning ∧ (onShipHit s).2 = true ∧
      (onShipHit (respawnComplete (onShipHit s).1)).1.lives = 1 ∧
      (onShipHit (respawnComplete (onShipHit s).1)).1.phase = .Respawning ∧
      (onShipHit (respawnComplete (onShipHit s).1)).2 = true ∧
      (onShipHit (respawnComplete
        (onShipHit (respawnComplete (onShipHit s).1)).1)).1.lives = 0 ∧
      (onShipHit (respawnComplete
        (onShipHit (respawnComplete (onShipHit s).1)).1)).1.phase = .GameOver ∧
      (onShipHit (respawnComplete
        (onShipHit (respawnComplete (onShipHit s).1)).1)).2 = false) := by
  refine ⟨?_, ?_, ?_, ?_, ?_⟩
  · unfold onShipHit
    split_ifs <;> rfl
  · intro h
    unfold onShipHit
    rw [if_neg (by omega)]
    exact ⟨rfl, rfl⟩
  · intro h
    unfold onShipHit
    rw [if_pos (by omega)]
    exact ⟨rfl, rfl⟩
  · unfold onShipHit
    split_ifs
    · exact Or.inr rfl
    · exact Or.inl rfl
  · intro h3
    simp only [onShipHit, respawnComplete, h3]
    norm_num

/-- Witness for `onShipHit_spec`: the fresh session (3 lives, Playing). -/
theorem onShipHit_spec_witness :
    (Session.mk 3 0 .Playing).phase = .Playing ∧
    (onShipHit (Session.mk 3 0 .Playing)).1.lives = 3 - 1 := by
  refine ⟨rfl, ?_⟩
  exact (onShipHit_spec (Session.mk 3 0 .Playing) rfl).1

/-! ## Claims about invincibility -/

lemma clockFires_none (s : Ship) (hd : s.invincibilityDeadline = none)
    (u : ℝ) : s.clockFires u = s := by
  unfold Ship.clockFires
  rw [hd]

lemma clockFires_some (s : Ship) (d : ℝ)
    (hd : s.invincibilityDeadline = some d) (u : ℝ) :
    s.clockFires u =
      if d ≤ u then
        { s with isInvincible := false, invincibilityDeadline := none }
      else s := by
  unfold Ship.clockFires
  rw [hd]

lemma clockFires_pending (s : Ship) (d : ℝ)
    (hd : s.invincibilityDeadline = some d) (u : ℝ) (hu : u < d) :
    s.clockFires u = s := by
  rw [clockFires_some s d hd u, if_neg (not_le.mpr hu)]

lemma clockRun_pending (instants : List ℝ) :
    ∀ (s : Ship) (d : ℝ), s.invincibilityDeadline = some d →
      (∀ u ∈ instants, u < d) → clockRun s instants = s := by
  induction instants with
  | nil => exact fun s d _ _ => rfl
  | cons u us ih =>
    intro s d hd hu
    have h1 : s.clockFires u = s := clockFires_pending s d hd u (hu u (by simp))
    have h2 : clockRun s (u :: us) = clockRun (s.clockFires u) us := rfl
    rw [h2, h1]
    exact ih s d hd (fun v hv => hu v (by simp [hv]))

/-- C6: `makeInvincible` at scene time `T` keeps `isInvincible` true through
every clock instant before `T + SHIP.INVINCIBILITY = T + 2000` and the flag
is cleared by the clock reaching any instant at or past `T + 2000`; calling
`makeInvincible` again at `T'` replaces the pending deadline, so instants
before `T' + 2000` — including ones at or past the stale `T + 2000` — never
clear the flag. -/
theorem makeInvincible_spec (s : Ship) (T : ℝ) (us : List ℝ)
    (hus : ∀ u ∈ us, u < T + 2000) :
    (s.makeInvincible T).isInvincible = true ∧
    (clockRun (s.makeInvincible T) us).isInvincible = true ∧
    (∀ u, T + 2000 ≤ u →
      ((clockRun (s.makeInvincible T) us).clockFires u).isInvincible = false) ∧
    (∀ (T' : ℝ) (vs : List ℝ), (∀ v ∈ vs, v < T' + 2000) →
      (clockRun ((clockRun (s.makeInvincible T) us).makeInvincible T')
        vs).isInvincible = true) := by
  have hrun : clockRun (s.makeInvincible T) us = s.makeInvincible T :=
    clockRun_pending us _ (T + 2000) rfl hus
  refine ⟨rfl, by rw [hrun]; rfl, ?_, ?_⟩
  · intro u hu
    rw [hrun, clockFires_some (s.makeInvincible T) (T + 2000) rfl u, if_pos hu]
  · intro T' vs hvs
    rw [clockRun_pending vs _ (T' + 2000) rfl hvs]
    rfl

/-- Witness for `makeInvincible_spec`: invincibility granted at `T = 1000`
survives clock instants 1500 and 2500 (both inside the 2000 ms window). -/
theorem makeInvincible_spec_witness :
    (∀ u ∈ [(1500:ℝ), 2500], u < 1000 + 2000) ∧
    (clockRun ((Ship.make 400 300).makeInvincible 1000)
      [1500, 2500]).isInvincible = true := by
  have h : ∀ u ∈ [(1500:ℝ), 2500], u < 1000 + 2000 := by norm_num
  exact ⟨h, (makeInvincible_spec (Ship.make 400 300) 1000 [1500, 2500] h).2.1⟩

/-! ## Claims about the ship speed cap -/

lemma sqrt_sq_add_sq (vx vy : ℝ) :
    Real.sqrt (vx ^ 2 + vy ^ 2) ^ 2 = vx ^ 2 + vy ^ 2 :=
  Real.sq_sqrt (by positivity)

lemma clampScaled_sq_eq (vx vy max : ℝ) (hmax : 0 ≤ max)
    (h : max < Real.sqrt (vx ^ 2 + vy ^ 2)) :
    (vx * max / Real.sqrt (vx ^ 2 + vy ^ 2)) ^ 2 +
      (vy * max / Real.sqrt (vx ^ 2 + vy ^ 2)) ^ 2 = max ^ 2 := by
  have hmag : 0 < Real.sqrt (vx ^ 2 + vy ^ 2) := lt_of_le_of_lt hmax h
  have hm2 := sqrt_sq_add_sq vx vy
  have hne : Real.sqrt (vx ^ 2 + vy ^ 2) ≠ 0 := ne_of_gt hmag
  have key : (vx * max / Real.sqrt (vx ^ 2 + vy ^ 2)) ^ 2 +
      (vy * max / Real.sqrt (vx ^ 2 + vy ^ 2)) ^ 2 =
      (vx ^ 2 + vy ^ 2) * max ^ 2 / Real.sqrt (vx ^ 2 + vy ^ 2) ^ 2 := by
    ring
  have hsum_ne : vx ^ 2 + vy ^ 2 ≠ 0 := hm2 ▸ pow_ne_zero 2 hne
  rw [key, hm2, mul_comm, mul_div_assoc, div_self hsum_ne, mul_one]

lemma clampMagnitude_sq_le (vx vy max : ℝ) (hmax : 0 ≤ max) :
    (clampMagnitude vx vy max).1 ^ 2 + (clampMagnitude vx vy max).2 ^ 2 ≤
      max ^ 2 := by
  unfold clampMagnitude
  split_ifs with h
  · exact le_of_eq (clampScaled_sq_eq vx vy max hmax h)
  · push_neg at h
    have h0 : 0 ≤ Real.sqrt (vx ^ 2 + vy ^ 2) := Real.sqrt_nonneg _
    have := sqrt_sq_add_sq vx vy
    nlinarith

/-- The squared-speed bound `SHIP.MAX_SPEED² = 400²` on a ship state. -/
def speedCapped (s : Ship) : Prop :=
  s.velocityX ^ 2 + s.velocityY ^ 2 ≤ 400 ^ 2

lemma shipStep_speedCapped (s : Ship) (e : ShipEvent) (h : speedCapped s) :
    speedCapped (shipStep s e) := by
  cases e with
  | update delta cursors =>
      show (Ship.newVelocity s (delta / 1000) cursors).1 ^ 2 +
          (Ship.newVelocity s (delta / 1000) cursors).2 ^ 2 ≤ 400 ^ 2
      unfold Ship.newVelocity
      split_ifs with hup
      · exact clampMagnitude_sq_le _ _ 400 (by norm_num)
      · exact h
  | reset x y now =>
      show ((0:ℝ)) ^ 2 + ((0:ℝ)) ^ 2 ≤ 400 ^ 2
      norm_num
  | clock now =>
      show speedCapped (s.clockFires now)
      cases hd : s.invincibilityDeadline with
      | none =>
          rw [clockFires_none s hd now]
          exact h
      | some d =>
          rw [clockFires_some s d hd now]
          split_ifs
          · exact h
          · exact h

lemma shipRun_speedCapped (evs : List ShipEvent) :
    ∀ s : Ship, speedCapped s → speedCapped (shipRun s evs) := by
  induction evs with
  | nil => exact fun s h => h
  | cons e es ih =>
      intro s h
      exact ih (shipStep s e) (shipStep_speedCapped s e h)

/-- C4: starting from a freshly constructed ship, any sequence of `update`
calls (non-negative deltas, any held keys) interleaved with `reset` calls and
clock advances keeps the velocity magnitude at or below
`SHIP.MAX_SPEED = 400` at every point (every event prefix is itself such a
sequence). -/
theorem ship_speed_invariant (x0 y0 : ℝ) (evs : List ShipEvent)
    (hevs : ∀ e ∈ evs, e.wellFormed) :
    Real.sqrt ((shipRun (Ship.make x0 y0) evs).velocityX ^ 2 +
               (shipRun (Ship.make x0 y0) evs).velocityY ^ 2) ≤ 400 := by
  have h0 : speedCapped (Ship.make x0 y0) := by
    unfold speedCapped Ship.make
    norm_num
  have hinv := shipRun_speedCapped evs (Ship.make x0 y0) h0
  have h1 : Real.sqrt ((shipRun (Ship.make x0 y0) evs).velocityX ^ 2 +
      (shipRun (Ship.make x0 y0) evs).velocityY ^ 2) ≤
      Real.sqrt (400 ^ 2) := Real.sqrt_le_sqrt hinv
  calc Real.sqrt ((shipRun (Ship.make x0 y0) evs).velocityX ^ 2 +
        (shipRun (Ship.make x0 y0) evs).velocityY ^ 2)
      ≤ Real.sqrt (400 ^ 2) := h1
    _ = 400 := Real.sqrt_sq (by norm_num)

/-- Witness for `ship_speed_invariant`: a thrust frame, a respawn, and a
clock advance. -/
theorem ship_speed_invariant_witness :
    (∀ e ∈ [ShipEvent.update 16 ⟨false, false, true⟩,
            ShipEvent.reset 400 300 5000, ShipEvent.clock 8000], e.wellFormed) ∧
    Real.sqrt ((shipRun (Ship.make 400 300)
        [ShipEvent.update 16 ⟨false, false, true⟩,
         ShipEvent.reset 400 300 5000, ShipEvent.clock 8000]).velocityX ^ 2 +
      (shipRun (Ship.make 400 300)
        [ShipEvent.update 16 ⟨false, false, true⟩,
         ShipEvent.reset 400 300 5000, ShipEvent.clock 8000]).velocityY ^ 2) ≤
      400 := by
  have h : ∀ e ∈ [ShipEvent.update 16 ⟨false, false, true⟩,
      ShipEvent.reset 400 300 5000, ShipEvent.clock 8000], e.wellFormed := by
    intro e he
    simp only [List.mem_cons, List.not_mem_nil, or_false] at he
    rcases he with h1 | h1 | h1 <;> subst h1 <;>
      simp [ShipEvent.wellFormed]
  exact ⟨h, ship_speed_invariant 400 300 _ h⟩

/-! ## Claims about clampMagnitude -/

lemma sqrt_nine_sixteen : Real.sqrt ((3:ℝ) ^ 2 + 4 ^ 2) = 5 := by
  rw [show ((3:ℝ) ^ 2 + 4 ^ 2) = 5 ^ 2 by norm_num]
  exact Real.sqrt_sq (by norm_num)

/-- C8 counterexample: at `(vx, vy, max) = (3, 4, -5)` the magnitude `5`
exceeds `max`, so the code scales by the negative factor `-5/5 = -1`: the
output is `(-3, -4)` — the signs are flipped, not preserved — and the output
magnitude is `5`, not `max`.  (With a zero vector and a negative `max` the
same branch is taken and does divide by the zero magnitude.) -/
theorem clampMagnitude_negative_max_flips :
    (clampMagnitude 3 4 (-5)).1 = -3 ∧ (clampMagnitude 3 4 (-5)).2 = -4 ∧
    Real.sqrt ((clampMagnitude 3 4 (-5)).1 ^ 2 +
      (clampMagnitude 3 4 (-5)).2 ^ 2) ≠ -5 := by
  have hbranch : ((-5:ℝ)) < Real.sqrt ((3:ℝ) ^ 2 + 4 ^ 2) := by
    rw [sqrt_nine_sixteen]
    norm_num
  have h1 : clampMagnitude 3 4 (-5) = (3 * (-5) / 5, 4 * (-5) / 5) := by
    unfold clampMagnitude
    rw [if_pos hbranch, sqrt_nine_sixteen]
  refine ⟨by rw [h1]; norm_num, by rw [h1]; norm_num, ?_⟩
  intro hcontra
  have hnn := Real.sqrt_nonneg ((clampMagnitude 3 4 (-5)).1 ^ 2 +
    (clampMagnitude 3 4 (-5)).2 ^ 2)
  rw [hcontra] at hnn
  linarith

/-- C8 (amended: the scaling and zero-vector clauses hold for positive `max`;
a negative `max` scales by a negative factor, flipping signs, and with the
zero vector it does take the dividing branch): `clampMagnitude` returns its
input unchanged whenever the magnitude is at most `max` (boundary included);
for `0 < max`, when the magnitude exceeds `max` both components are scaled by
the positive factor `max / magnitude` — preserving ratio and signs — and the
output magnitude is exactly `max`; and the zero vector with positive `max` is
returned untouched without taking the dividing branch. -/
theorem clampMagnitude_spec (vx vy max : ℝ) :
    (Real.sqrt (vx ^ 2 + vy ^ 2) ≤ max →
      clampMagnitude vx vy max = (vx, vy)) ∧
    (0 < max → max < Real.sqrt (vx ^ 2 + vy ^ 2) →
      (clampMagnitude vx vy max).1 =
        vx * (max / Real.sqrt (vx ^ 2 + vy ^ 2)) ∧
      (clampMagnitude vx vy max).2 =
        vy * (max / Real.sqrt (vx ^ 2 + vy ^ 2)) ∧
      0 < max / Real.sqrt (vx ^ 2 + vy ^ 2) ∧
      (clampMagnitude vx vy max).1 * vy = (clampMagnitude vx vy max).2 * vx ∧
      Real.sqrt ((clampMagnitude vx vy max).1 ^ 2 +
        (clampMagnitude vx vy max).2 ^ 2) = max) ∧
    (vx = 0 → vy = 0 → 0 < max →
      clampMagnitude vx vy max = (0, 0) ∧ ¬ clampScales vx vy max) := by
  refine ⟨?_, ?_, ?_⟩
  · intro h
    unfold clampMagnitude
    rw [if_neg (not_lt.mpr h)]
  · intro hmax h
    have hmag : 0 < Real.sqrt (vx ^ 2 + vy ^ 2) := lt_trans hmax h
    have hcl : clampMagnitude vx vy max =
        (vx * max / Real.sqrt (vx ^ 2 + vy ^ 2),
         vy * max / Real.sqrt (vx ^ 2 + vy ^ 2)) := by
      unfold clampMagnitude
      rw [if_pos h]
    refine ⟨by rw [hcl]; ring, by rw [hcl]; ring, div_pos hmax hmag,
            by rw [hcl]; ring, ?_⟩
    rw [hcl]
    show Real.sqrt ((vx * max / Real.sqrt (vx ^ 2 + vy ^ 2)) ^ 2 +
      (vy * max / Real.sqrt (vx ^ 2 + vy ^ 2)) ^ 2) = max
    rw [clampScaled_sq_eq vx vy max (le_of_lt hmax) h]
    exact Real.sqrt_sq (le_of_lt hmax)
  · intro hx hy hmax
    subst hx
    subst hy
    have hz : Real.sqrt ((0:ℝ) ^ 2 + 0 ^ 2) = 0 := by
      norm_num
    constructor
    · unfold clampMagnitude
      rw [if_neg (by rw [hz]; exact not_lt.mpr (le_of_lt hmax))]
    · unfold clampScales
      rw [hz]
      exact not_lt.mpr (le_of_lt hmax)

/-- Witness for `clampMagnitude_spec`: the vector `(3, 4)` of magnitude 5 is
untouched by a cap of 10. -/
theorem clampMagnitude_spec_witness :
    Real.sqrt ((3:ℝ) ^ 2 + 4 ^ 2) ≤ 10 ∧ clampMagnitude 3 4 10 = (3, 4) := by
  have h : Real.sqrt ((3:ℝ) ^ 2 + 4 ^ 2) ≤ 10 := by
    rw [sqrt_nine_sixteen]
    norm_num
  exact ⟨h, (clampMagnitude_spec 3 4 10).1 h⟩

/-! ## Claims about asteroid splitting -/

lemma velocityFromAngle_norm (a s : ℝ) (hs : 0 ≤ s) :
    Real.sqrt ((velocityFromAngle a s).1 ^ 2 + (velocityFromAngle a s).2 ^ 2)
      = s := by
  show Real.sqrt ((s * Real.cos (a * Real.pi / 180)) ^ 2 +
    (s * Real.sin (a * Real.pi / 180)) ^ 2) = s
  have hpythag := Real.sin_sq_add_cos_sq (a * Real.pi / 180)
  have hsum : (s * Real.cos (a * Real.pi / 180)) ^ 2 +
      (s * Real.sin (a * Real.pi / 180)) ^ 2 = s ^ 2 := by
    nlinarith [hpythag]
  rw [hsum]
  exact Real.sqrt_sq hs

lemma randomBetween_mem (r lo hi : ℝ) (hr : 0 ≤ r) (hr1 : r < 1)
    (h : lo < hi) :
    lo ≤ randomBetween r lo hi ∧ randomBetween r lo hi < hi := by
  unfold randomBetween
  constructor
  · nlinarith
  · nlinarith

lemma childSpeed_bounds (lo hi : ℚ) (r : ℝ) (hr : 0 ≤ r) (hr1 : r < 1)
    (hlo : 0 ≤ lo) (hlohi : lo < hi) (a : ℝ) :
    ((lo:ℝ)) ≤ Real.sqrt
        ((velocityFromAngle a (randomBetween r (lo:ℝ) (hi:ℝ))).1 ^ 2 +
         (velocityFromAngle a (randomBetween r (lo:ℝ) (hi:ℝ))).2 ^ 2) ∧
      Real.sqrt
        ((velocityFromAngle a (randomBetween r (lo:ℝ) (hi:ℝ))).1 ^ 2 +
         (velocityFromAngle a (randomBetween r (lo:ℝ) (hi:ℝ))).2 ^ 2) <
        (hi:ℝ) := by
  have hlo' : (0:ℝ) ≤ (lo:ℝ) := by exact_mod_cast hlo
  have hlohi' : ((lo:ℝ)) < (hi:ℝ) := by exact_mod_cast hlohi
  obtain ⟨hA, hB⟩ := randomBetween_mem r (lo:ℝ) (hi:ℝ) hr hr1 hlohi'
  have hs : 0 ≤ randomBetween r (lo:ℝ) (hi:ℝ) := le_trans hlo' hA
  rw [velocityFromAngle_norm a _ hs]
  exact ⟨hA, hB⟩

lemma splitAsteroid_none (px py : ℝ) (size : AsteroidSize)
    (h : getChildSize size = none) (r1 r2 r3 r4 : ℝ) :
    splitAsteroid px py size r1 r2 r3 r4 = [] := by
  unfold splitAsteroid
  rw [h]

lemma splitAsteroid_some (px py : ℝ) (size cs : AsteroidSize)
    (h : getChildSize size = some cs) (r1 r2 r3 r4 : ℝ) :
    splitAsteroid px py size r1 r2 r3 r4 =
      [ { x := px, y := py, size := cs,
          velocityX := (velocityFromAngle (randomBetween r1 0 360)
            (randomBetween r2 ((SIZE_CONFIG cs).SPEED_MIN : ℝ)
              ((SIZE_CONFIG cs).SPEED_MAX : ℝ))).1,
          velocityY := (velocityFromAngle (randomBetween r1 0 360)
            (randomBetween r2 ((SIZE_CONFIG cs).SPEED_MIN : ℝ)
              ((SIZE_CONFIG cs).SPEED_MAX : ℝ))).2 },
        { x := px, y := py, size := cs,
          velocityX := (velocityFromAngle (randomBetween r3 0 360)
            (randomBetween r4 ((SIZE_CONFIG cs).SPEED_MIN : ℝ)
              ((SIZE_CONFIG cs).SPEED_MAX : ℝ))).1,
          velocityY := (velocityFromAngle (randomBetween r3 0 360)
            (randomBetween r4 ((SIZE_CONFIG cs).SPEED_MIN : ℝ)
              ((SIZE_CONFIG cs).SPEED_MAX : ℝ))).2 } ] := by
  unfold splitAsteroid
  rw [h]

lemma splitChild_bounds (px py : ℝ) (cs : AsteroidSize) (r : ℝ) (ang : ℝ)
    (hr : 0 ≤ r) (hr1 : r < 1) (hcs : cs = .MEDIUM ∨ cs = .SMALL) :
    ((SIZE_CONFIG cs).SPEED_MIN : ℝ) ≤ Real.sqrt
        ((velocityFromAngle ang (randomBetween r
            ((SIZE_CONFIG cs).SPEED_MIN : ℝ)
            ((SIZE_CONFIG cs).SPEED_MAX : ℝ))).1 ^ 2 +
         (velocityFromAngle ang (randomBetween r
            ((SIZE_CONFIG cs).SPEED_MIN : ℝ)
            ((SIZE_CONFIG cs).SPEED_MAX : ℝ))).2 ^ 2) ∧
      Real.sqrt
        ((velocityFromAngle ang (randomBetween r
            ((SIZE_CONFIG cs).SPEED_MIN : ℝ)
            ((SIZE_CONFIG cs).SPEED_MAX : ℝ))).1 ^ 2 +
         (velocityFromAngle ang (randomBetween r
            ((SIZE_CONFIG cs).SPEED_MIN : ℝ)
            ((SIZE_CONFIG cs).SPEED_MAX : ℝ))).2 ^ 2) <
        ((SIZE_CONFIG cs).SPEED_MAX : ℝ) := by
  rcases hcs with h | h <;> subst h <;>
    exact childSpeed_bounds _ _ r hr hr1 (by norm_num [SIZE_CONFIG])
      (by norm_num [SIZE_CONFIG]) ang

/-- C2: a bullet-destroyed small asteroid is removed with no replacement;
splitting any other size spawns exactly two children of the next-smaller
tier, at the parent's exact position, each with a speed drawn from the child
tier's `[SPEED_MIN, SPEED_MAX)` range via its own random draw (the parent's
velocity is not an input of `splitAsteroid` at all, and each child's spawn is
unchanged when the other child's draws change); the randomized direction
ranges over the full 0–360°; and `getChildSize` is total with
`LARGE → MEDIUM`, `MEDIUM → SMALL`, `SMALL → none`. -/
theorem splitAsteroid_spec (px py : ℝ) (size : AsteroidSize) (r1 r2 r3 r4 : ℝ)
    (h1 : 0 ≤ r1) (h1' : r1 < 1) (h2 : 0 ≤ r2) (h2' : r2 < 1)
    (h3 : 0 ≤ r3) (h3' : r3 < 1) (h4 : 0 ≤ r4) (h4' : r4 < 1) :
    (getChildSize .LARGE = some .MEDIUM ∧ getChildSize .MEDIUM = some .SMALL ∧
      getChildSize .SMALL = none) ∧
    (size = .SMALL → splitAsteroid px py size r1 r2 r3 r4 = []) ∧
    (∀ cs, getChildSize size = some cs →
      (splitAsteroid px py size r1 r2 r3 r4).length = 2 ∧
      (∀ c ∈ splitAsteroid px py size r1 r2 r3 r4,
        c.x = px ∧ c.y = py ∧ c.size = cs ∧
        ((SIZE_CONFIG cs).SPEED_MIN : ℝ) ≤
          Real.sqrt (c.velocityX ^ 2 + c.velocityY ^ 2) ∧
        Real.sqrt (c.velocityX ^ 2 + c.velocityY ^ 2) <
          ((SIZE_CONFIG cs).SPEED_MAX : ℝ))) ∧
    (∀ a b : ℝ, (splitAsteroid px py size r1 r2 r3 r4).head? =
      (splitAsteroid px py size r1 r2 a b).head?) ∧
    (∀ a b : ℝ, (splitAsteroid px py size r1 r2 r3 r4).getLast? =
      (splitAsteroid px py size a b r3 r4).getLast?) ∧
    (0 ≤ randomBetween r1 (0:ℝ) 360 ∧ randomBetween r1 (0:ℝ) 360 < 360 ∧
      0 ≤ randomBetween r3 (0:ℝ) 360 ∧ randomBetween r3 (0:ℝ) 360 < 360) ∧
    (∀ a : ℝ, 0 ≤ a → a < 360 →
      ∃ r : ℝ, 0 ≤ r ∧ r < 1 ∧ randomBetween r 0 360 = a) := by
  have hchild : ∀ cs, getChildSize size = some cs →
      cs = AsteroidSize.MEDIUM ∨ cs = AsteroidSize.SMALL := by
    intro cs h
    cases size <;> simp [getChildSize] at h <;> simp [h.symm]
  refine ⟨⟨rfl, rfl, rfl⟩, ?_, ?_, ?_, ?_, ?_, ?_⟩
  · intro h
    subst h
    exact splitAsteroid_none px py AsteroidSize.SMALL (by rfl) r1 r2 r3 r4
  · intro cs hcs
    rw [splitAsteroid_some px py size cs hcs r1 r2 r3 r4]
    refine ⟨rfl, ?_⟩
    intro c hc
    have hcs2 := hchild cs hcs
    simp only [List.mem_cons, List.not_mem_nil, or_false] at hc
    rcases hc with rfl | rfl
    · exact ⟨rfl, rfl, rfl, (splitChild_bounds px py cs r2 _ h2 h2' hcs2).1,
        (splitChild_bounds px py cs r2 _ h2 h2' hcs2).2⟩
    · exact ⟨rfl, rfl, rfl, (splitChild_bounds px py cs r4 _ h4 h4' hcs2).1,
        (splitChild_bounds px py cs r4 _ h4 h4' hcs2).2⟩
  · intro a b
    cases hc : getChildSize size with
    | none =>
        rw [splitAsteroid_none px py size hc r1 r2 r3 r4,
            splitAsteroid_none px py size hc r1 r2 a b]
    | some cs =>
        rw [splitAsteroid_some px py size cs hc r1 r2 r3 r4,
            splitAsteroid_some px py size cs hc r1 r2 a b]
        rfl
  · intro a b
    cases hc : getChildSize size with
    | none =>
        rw [splitAsteroid_none px py size hc r1 r2 r3 r4,
            splitAsteroid_none px py size hc a b r3 r4]
    | some cs =>
        rw [splitAsteroid_some px py size cs hc r1 r2 r3 r4,
            splitAsteroid_some px py size cs hc a b r3 r4]
        rfl
  · exact ⟨(randomBetween_mem r1 0 360 h1 h1' (by norm_num)).1,
      (randomBetween_mem r1 0 360 h1 h1' (by norm_num)).2,
      (randomBetween_mem r3 0 360 h3 h3' (by norm_num)).1,
      (randomBetween_mem r3 0 360 h3 h3' (by norm_num)).2⟩
  · intro a ha ha'
    refine ⟨a / 360, by positivity, by linarith, ?_⟩
    unfold randomBetween
    ring

/-- Witness for `splitAsteroid_spec`: splitting a large asteroid at
`(100, 200)` with all four draws `1/2`. -/
theorem splitAsteroid_spec_witness :
    ((0:ℝ) ≤ 1/2 ∧ (1/2:ℝ) < 1) ∧
    (splitAsteroid 100 200 .LARGE (1/2) (1/2) (1/2) (1/2)).length = 2 := by
  have h : (0:ℝ) ≤ 1/2 := by norm_num
  have h' : (1/2:ℝ) < 1 := by norm_num
  exact ⟨⟨h, h'⟩,
    ((splitAsteroid_spec 100 200 .LARGE (1/2) (1/2) (1/2) (1/2)
      h h' h h' h h' h h').2.2.1 .MEDIUM rfl).1⟩

/-! ## Claims about wave spawning -/

lemma getSpawnPosition_spec (sx sy : ℚ) :
    ∀ (draws : List (ℕ × ℚ)) (p : ℚ × ℚ) (rest : List (ℕ × ℚ)),
      getSpawnPosition sx sy draws = some (p, rest) →
      (p.2 = 0 ∨ p.2 = 600 ∨ p.1 = 0 ∨ p.1 = 800) ∧
      150 ^ 2 ≤ (p.1 - sx) ^ 2 + (p.2 - sy) ^ 2 := by
  intro draws
  induction draws with
  | nil =>
      intro p rest h
      simp [getSpawnPosition] at h
  | cons d ds ih =>
      intro p rest h
      obtain ⟨edge, t⟩ := d
      simp only [getSpawnPosition] at h
      split_ifs at h with hdist
      · exact ih p rest h
      · simp only [Option.some.injEq, Prod.mk.injEq] at h
        obtain ⟨hp, _⟩ := h
        subst hp
        refine ⟨?_, not_lt.mp hdist⟩
        rcases edge with _ | _ | _ | e <;> simp [edgePoint, randomBetween]

lemma spawnAsteroids_spec (sx sy : ℚ) :
    ∀ (n : ℕ) (draws spawned : List _) (rest : List (ℕ × ℚ)),
      spawnAsteroids sx sy n draws = some (spawned, rest) →
      spawned.length = n ∧
      ∀ a ∈ spawned, a.size = AsteroidSize.LARGE ∧
        (a.y = 0 ∨ a.y = 600 ∨ a.x = 0 ∨ a.x = 800) ∧
        150 ^ 2 ≤ (a.x - sx) ^ 2 + (a.y - sy) ^ 2 := by
  intro n
  induction n with
  | zero =>
      intro draws spawned rest h
      simp only [spawnAsteroids, Option.some.injEq, Prod.mk.injEq] at h
      obtain ⟨h1, _⟩ := h
      subst h1
      exact ⟨rfl, by simp⟩
  | succ n ih =>
      intro draws spawned rest h
      simp only [spawnAsteroids] at h
      cases hg : getSpawnPosition sx sy draws with
      | none => rw [hg] at h; simp at h
      | some pr =>
          obtain ⟨p, rest1⟩ := pr
          rw [hg] at h
          dsimp only at h
          cases hs : spawnAsteroids sx sy n rest1 with
          | none => rw [hs] at h; simp at h
          | some sr =>
              obtain ⟨spawned1, rest2⟩ := sr
              rw [hs] at h
              dsimp only at h
              simp only [Option.some.injEq, Prod.mk.injEq] at h
              obtain ⟨hsp, _⟩ := h
              subst hsp
              obtain ⟨hlen, hall⟩ := ih rest1 spawned1 rest2 hs
              obtain ⟨hedge, hdist⟩ := getSpawnPosition_spec sx sy draws p rest1 hg
              refine ⟨by simp [hlen], ?_⟩
              intro a ha
              rcases List.mem_cons.mp ha with rfl | ha'
              · exact ⟨rfl, hedge, hdist⟩
              · exact hall a ha'

/-- C3: a wave-`w` spawn creates exactly
`GAME.INITIAL_ASTEROIDS + (w - 1)` asteroids, all of the largest tier, each
on one of the four arena edges at straight-line distance at least 150 from
the ship (a draw failing the clearance test is re-rolled and never used); the
per-frame check advances the wave counter exactly when the live asteroid set
is empty, a successful spawn is never empty (so the very next check cannot
advance again), and clearing wave 1 spawns
`GAME.INITIAL_ASTEROIDS + 1` asteroids for wave 2. -/
theorem spawnWave_spec (w : ℕ) (hw : 1 ≤ w) (sx sy : ℚ)
    (draws : List (ℕ × ℚ)) :
    (∀ spawned rest, spawnWave w sx sy draws = some (spawned, rest) →
      spawned.length = GAME.INITIAL_ASTEROIDS + (w - 1) ∧
      ∀ a ∈ spawned, a.size = AsteroidSize.LARGE ∧
        (a.y = 0 ∨ a.y = 600 ∨ a.x = 0 ∨ a.x = 800) ∧
        (150:ℝ) ≤ Real.sqrt (((a.x : ℝ) - (sx : ℝ)) ^ 2 +
          ((a.y : ℝ) - (sy : ℝ)) ^ 2)) ∧
    (∀ (edge : ℕ) (t : ℚ) (rest : List (ℕ × ℚ)),
      ((edgePoint edge t).1 - sx) ^ 2 + ((edgePoint edge t).2 - sy) ^ 2 <
        150 ^ 2 →
      getSpawnPosition sx sy ((edge, t) :: rest) =
        getSpawnPosition sx sy rest) ∧
    (∀ (asteroids : List WaveSpawn) (wave : ℕ),
      (waveCheck asteroids wave sx sy draws).1 =
        if asteroids.isEmpty then wave + 1 else wave) ∧
    (∀ spawned rest, spawnWave w sx sy draws = some (spawned, rest) →
      spawned.isEmpty = false) ∧
    ((waveCheck [] 1 sx sy draws).1 = 2 ∧
      ∀ spawned rest, (waveCheck [] 1 sx sy draws).2 = some (spawned, rest) →
        spawned.length = GAME.INITIAL_ASTEROIDS + 1) := by
  have hmain : ∀ spawned rest, spawnWave w sx sy draws = some (spawned, rest) →
      spawned.length = GAME.INITIAL_ASTEROIDS + (w - 1) ∧
      ∀ a ∈ spawned, a.size = AsteroidSize.LARGE ∧
        (a.y = 0 ∨ a.y = 600 ∨ a.x = 0 ∨ a.x = 800) ∧
        150 ^ 2 ≤ (a.x - sx) ^ 2 + (a.y - sy) ^ 2 :=
    fun spawned rest h => spawnAsteroids_spec sx sy _ draws spawned rest h
  refine ⟨?_, ?_, ?_, ?_, ?_, ?_⟩
  · intro spawned rest h
    obtain ⟨hlen, hall⟩ := hmain spawned rest h
    refine ⟨hlen, ?_⟩
    intro a ha
    obtain ⟨hsz, hedge, hdist⟩ := hall a ha
    refine ⟨hsz, hedge, ?_⟩
    apply Real.le_sqrt_of_sq_le
    have : ((150:ℚ) ^ 2 : ℝ) ≤ (((a.x - sx) ^ 2 + (a.y - sy) ^ 2 : ℚ) : ℝ) := by
      exact_mod_cast hdist
    push_cast at this
    linarith
  · intro edge t rest hclose
    simp only [getSpawnPosition]
    rw [if_pos hclose]
  · intro asteroids wave
    unfold waveCheck
    split_ifs with h <;> simp [h]
  · intro spawned rest h
    obtain ⟨hlen, _⟩ := hmain spawned rest h
    have : spawned.length ≠ 0 := by
      rw [hlen]
      unfold GAME.INITIAL_ASTEROIDS
      omega
    cases spawned with
    | nil => simp at this
    | cons a as => rfl
  · unfold waveCheck
    norm_num
  · intro spawned rest h
    unfold waveCheck at h
    simp only [List.isEmpty_nil, if_true] at h
    unfold spawnWave at h
    obtain ⟨hlen, _⟩ := spawnAsteroids_spec sx sy _ draws spawned rest h
    rw [hlen]

/-- Witness for `spawnWave_spec`: after clearing wave 1, the per-frame check
advances the wave counter to 2. -/
theorem spawnWave_spec_witness :
    1 ≤ 1 ∧
    (waveCheck ([] : List WaveSpawn) 1 400 300 [] ).1 = 2 := by
  exact ⟨le_refl 1, (spawnWave_spec 1 (le_refl 1) 400 300 []).2.2.2.2.1⟩

end AsteroidGame
